import Mathlib

/-!
Verification of the EPUB import pipeline of the `obsidian-importer` fork
(ebook formats: `src/formats/ebooks`).  The TypeScript sources are embedded
shallowly: strings are lists of unicode scalars, DOM trees are an inductive
type, the asynchronous orchestrator loops become pure trace-producing
functions, and nondeterminism (Math.random) becomes an explicit parameter.
Each definition is translated from one source function and is named after it
where possible; the doc comment of every definition records the source file
and function it embeds.
-/

/- ================================================================
   Section 1: JavaScript string primitives
   ================================================================ -/

/-- Whitespace predicate of JavaScript (the set matched by the regexp
class backslash-s and removed by String.prototype.trim): space, tab, the
line terminators, vertical tab, form feed, NBSP, BOM and the Unicode
space separators. -/
def isJsWhitespace (c : Char) : Bool :=
  c = ' ' || c = '\t' || c = '\n' || c = '\u000D' || c = '\u000B' || c = '\u000C' ||
  c = '\u00A0' || c = '\uFEFF' ||
  (c = '\u1680') || ('\u2000' <= c && c <= '\u200A') ||
  c = '\u2028' || c = '\u2029' || c = '\u202F' || c = '\u205F' || c = '\u3000'

/-- Embeds String.prototype.trim on a list of characters: leading and
trailing JavaScript whitespace is removed. -/
def jsTrim (s : List Char) : List Char :=
  ((s.dropWhile isJsWhitespace).reverse.dropWhile isJsWhitespace).reverse

/-- Embeds String.prototype.trim on strings. -/
def jsTrimStr (s : String) : String :=
  ⟨jsTrim s.data⟩

/- ================================================================
   Section 2: Filename sanitizer
   (src/formats/ebooks/ebook-transformers.ts)
   ================================================================ -/

/-- Embeds the constant FILENAME_TRANSFORMATIONS of
ebook-transformers.ts: the ordered list of global single-character
regex replacements applied by titleToBasename.  Every pattern and every
replacement of the source table is a single character, so each table row
is one (pattern, replacement) character pair, in source order. -/
def FILENAME_TRANSFORMATIONS : List (Char × Char) :=
  [('?', '❓'),
   (':', '꞉'),
   ('"', '\''),
   ('<', '＜'),
   ('>', '＞'),
   ('|', '∣'),
   ('\\', '/'),
   ('/', '╱'),
   ('[', '⟦'),
   (']', '⟧'),
   ('#', '＃'),
   ('^', '⌃'),
   ('&', '＆'),
   ('*', '✱')]

/-- Embeds one step sanitized.replace(from, to) of titleToBasename for a
single-character pattern with the global flag: every occurrence of the
pattern character is replaced. -/
def jsReplaceAllChar (t r : Char) (s : List Char) : List Char :=
  s.map (fun c => if c = t then r else c)

/-- Embeds titleToBasename of ebook-transformers.ts on character lists:
the FILENAME_TRANSFORMATIONS are applied in order, then the result is
trimmed. -/
def titleToBasenameL (title : List Char) : List Char :=
  jsTrim (FILENAME_TRANSFORMATIONS.foldl (fun s p => jsReplaceAllChar p.1 p.2 s) title)

/-- Embeds titleToBasename of ebook-transformers.ts (also identical to
tidyFilename of epub-parser.ts, an earlier name of the same function). -/
def titleToBasename (title : String) : String :=
  ⟨titleToBasenameL title.data⟩

/-- The character-level effect of the full FILENAME_TRANSFORMATIONS
chain: the rules are folded over one character in table order (a later
rule sees the output of an earlier one, exactly as the sequential
String.replace calls do). -/
def substFilenameChar (c : Char) : Char :=
  FILENAME_TRANSFORMATIONS.foldl (fun c p => if c = p.1 then p.2 else c) c

/- ================================================================
   Section 3: DOM model and the code-block normalization transform
   (injectCodeBlock of src/formats/ebooks/ebook-transformers.ts)
   ================================================================ -/

/-- A DOM node: an element with a (lowercase) tag name, attributes and
children, or a text node.  This is the shallow embedding of the HTML
documents the transforms of ebook-transformers.ts mutate. -/
inductive HNode where
  | elem (tag : String) (attrs : List (String × String)) (children : List HNode)
  | text (content : String)

/-- Embeds the guard of the stripping loop of injectCodeBlock: a node is
a whitespace-only text node when it is a TEXT_NODE whose textContent
trims to the empty string. -/
def isEmptyTextNode : HNode → Bool
  | .text s => (jsTrim s.data).isEmpty
  | .elem _ _ _ => false

/-- A node is an element node. -/
def isElemNode : HNode → Bool
  | .elem _ _ _ => true
  | .text _ => false

/-- Embeds the DOM accessor firstElementChild: the first child that is
an element, skipping text nodes. -/
def firstElementChild (children : List HNode) : Option HNode :=
  children.find? isElemNode

/-- Embeds the test of injectCodeBlock on a pre element's child list:
the first element child exists and its localName is the code tag. -/
def firstElementIsCode (children : List HNode) : Bool :=
  match firstElementChild children with
  | some (HNode.elem t _ _) => t = "code"
  | _ => false

/-- Embeds the per-pre body of injectCodeBlock
(ebook-transformers.ts): leading whitespace-only text children are
removed; then, unless the first element child is a code element, a code
element with class language-undefined is created and every remaining
child of the pre is moved into it, the code element becoming the pre's
only child. -/
def injectCodeChildren (children : List HNode) : List HNode :=
  let rest := children.dropWhile isEmptyTextNode
  if firstElementIsCode rest then rest
  else [HNode.elem "code" [("class", "language-undefined")] rest]

/- The next pair embeds injectCodeBlock of ebook-transformers.ts on a
whole subtree.  The source snapshots the list of pre descendants and
rewrites each pre's direct children in place; since the rewrite of one
pre touches only that pre's direct child list (and preserves every
node's tag and text), processing order is irrelevant and the recursive
bottom-up traversal used here produces the same tree. -/
mutual
/-- Embeds injectCodeBlock of ebook-transformers.ts on one node. -/
def injectCodeBlock : HNode → HNode
  | .text s => .text s
  | .elem t a ch =>
      let ch2 := injectCodeBlockList ch
      if t = "pre" then .elem t a (injectCodeChildren ch2) else .elem t a ch2
/-- Embeds injectCodeBlock on a child list. -/
def injectCodeBlockList : List HNode → List HNode
  | [] => []
  | n :: rest => injectCodeBlock n :: injectCodeBlockList rest
end

/- The normalization invariant of the spec: every pre element of the
subtree has a code element as its first element child. -/
mutual
/-- Invariant on one node: every pre below it has a code element as its
first element child. -/
def preOk : HNode → Bool
  | .text _ => true
  | .elem t _ ch => (if t = "pre" then firstElementIsCode ch else true) && preOkList ch
/-- Invariant on a child list. -/
def preOkList : List HNode → Bool
  | [] => true
  | n :: rest => preOk n && preOkList rest
end

/- ================================================================
   Section 4: anchor-id selection of markElementAsLinkTarget
   (src/formats/ebooks/ebook-transformers.ts)
   ================================================================ -/

/-- Characters collapsed by the id sanitization regex of
markElementAsLinkTarget (the class of underscore, dot and colon). -/
def isIdSepChar (c : Char) : Bool :=
  c = '_' || c = '.' || c = ':'

/-- Embeds the replacement of every maximal run of underscore, dot or
colon characters by a single dash (the global one-or-more regex replace
in markElementAsLinkTarget), processed character-wise: a separator
starts a dash unless the previous character already belonged to the
run. -/
def sanitizeIdAux : Bool → List Char → List Char
  | _, [] => []
  | prevSep, c :: rest =>
      if isIdSepChar c then
        if prevSep then sanitizeIdAux true rest
        else '-' :: sanitizeIdAux true rest
      else c :: sanitizeIdAux false rest

/-- Run-collapsing id sanitization of markElementAsLinkTarget. -/
def sanitizeIdRuns (l : List Char) : List Char :=
  sanitizeIdAux false l

/-- Embeds the anchor-id syntax check of markElementAsLinkTarget: the
regex of a leading ASCII letter followed by word characters, dashes or
dots. -/
def obsidianIdValid (s : String) : Bool :=
  match s.data with
  | [] => false
  | c :: rest =>
      (c.isAlpha) && rest.all (fun d => d.isAlpha || d.isDigit || d = '_' || d = '-' || d = '.')

/-- Digit character for radix 24 as Number.prototype.toString prints
it: decimal digits then lowercase letters. -/
def digitChar24 (d : Nat) : Char :=
  if d < 10 then Char.ofNat (48 + d) else Char.ofNat (97 + (d - 10))

/-- Base-24 digits of a natural number, most significant first (the
first argument is fuel, always sufficient at the call site). -/
def intDigits24Aux : Nat → Nat → List Char → List Char
  | 0, _, acc => acc
  | fuel + 1, n, acc =>
      if n < 24 then digitChar24 n :: acc
      else intDigits24Aux fuel (n / 24) (digitChar24 (n % 24) :: acc)

/-- Base-24 rendering of a natural number. -/
def intDigits24 (n : Nat) : List Char :=
  intDigits24Aux (n + 1) n []

/-- Fractional base-24 digit expansion of the fraction r over den, with
fuel (JavaScript prints a finite expansion; the inputs used here
terminate long before the fuel runs out). -/
def fracDigits24 : Nat → Nat → Nat → List Char
  | 0, _, _ => []
  | _, 0, _ => []
  | fuel + 1, r, den =>
      digitChar24 (r * 24 / den) :: fracDigits24 fuel (r * 24 % den) den

/-- Embeds Number.prototype.toString with radix 24 for a nonnegative
value given as the exact fraction num over den: base-24 digits of the
integer part (digits above nine printed as lowercase letters), then a
dot and the fractional digits when the value is not an integer. -/
def jsToString24 (num den : Nat) : String :=
  let n := num / den
  let r := num % den
  if r = 0 then ⟨intDigits24 n⟩
  else ⟨intDigits24 n ++ ('.' :: fracDigits24 64 r den)⟩

/-- Embeds the id selection of markElementAsLinkTarget
(ebook-transformers.ts): the element's id attribute (when present) is
sanitized by sanitizeIdRuns; if the result is missing, empty or fails
the obsidianIdValid syntax check, the id is replaced by the fallback
Math.random() * 1000000000000000000 rendered in base 24.  The Math.random
draw is the explicit exact fraction randNum over randDen (Math.random
returns a multiple of two to the minus fifty-third power); the draws
considered here are chosen so that the binary64 multiplication by the
constant is exact, making the embedded exact arithmetic agree with the
JavaScript float computation.  The DOM marker attachment that follows in
the source does not alter the returned id. -/
def markElementAsLinkTargetId (sourceId : Option String) (randNum randDen : Nat) : String :=
  match sourceId.map (fun s => String.mk (sanitizeIdRuns s.data)) with
  | some s =>
      if s.length ≠ 0 && obsidianIdValid s then s
      else jsToString24 (randNum * 1000000000000000000) randDen
  | none => jsToString24 (randNum * 1000000000000000000) randDen

/- ================================================================
   Section 5: importable assets
   (src/formats/ebooks/epub/epub-assets.ts)
   ================================================================ -/

/-- An element of a parsed page document as link resolution sees it:
its id attribute (elements are kept in document order). -/
structure ElementM where
  id : String
deriving DecidableEq

/-- A hyperlink element of a page: its href attribute and its text
content. -/
structure AnchorM where
  href : String
  textContent : String
deriving DecidableEq

/-- The PageAsset state of epub-assets.ts: the folder path of the asset
relative to the book, the source file basename, the lazily resolved
page title, the parsed document (element-id view plus the page's
hyperlink elements; none while unparsed), whether parse has bound the
owning book, the toc flag, and the link target map.  The map key type
Option String reflects that the JavaScript Map can be keyed by the
undefined value (a fragment-less link passes targetID undefined). -/
structure PageModel where
  folderPath : List String
  basename : String
  pageTitle : Option String
  doc : Option (List ElementM)
  anchors : List AnchorM
  bookSet : Bool
  tocFlag : Bool
  linkTargetMap : List (Option String × String)
deriving DecidableEq

/-- The MediaAsset state of epub-assets.ts: folder path, source
basename and extension, and the archive entry's bytes. -/
structure MediaAssetM where
  folderPath : List String
  basename : String
  ext : String
  content : List Nat
deriving DecidableEq

/-- The ImportableAsset variants of epub-assets.ts. -/
inductive AssetModel where
  | pageA (p : PageModel)
  | mediaA (m : MediaAssetM)
  | tocA (folderPath : List String)
deriving DecidableEq

/-- Embeds PageAsset.outputFilename: the sanitized resolved title (or,
when no title was ever resolved, the sanitized source basename) with
the Markdown extension appended. -/
def pageOutputFilename (p : PageModel) : String :=
  titleToBasename (p.pageTitle.getD p.basename) ++ ".md"

/-- Embeds ImportableAsset.sourceFilename for media assets. -/
def mediaSourceFilename (m : MediaAssetM) : String :=
  m.basename ++ "." ++ m.ext

/-- Embeds MediaAsset.outputFilename, which returns sourceFilename. -/
def mediaOutputFilename (m : MediaAssetM) : String :=
  mediaSourceFilename m

/-- Embeds TocAsset.outputFilename. -/
def tocOutputFilename : String :=
  "§ Title Page.md"

/-- Embeds ImportableAsset.makeAssetPath: folder path segments joined
with the filename by slashes. -/
def makeAssetPath (folderPath : List String) (filename : String) : String :=
  String.intercalate "/" (folderPath ++ [filename])

/-- Embeds ImportableAsset.pathFromBook: a path relative to this asset
becomes book-relative by prepending the asset's folder path. -/
def pathFromBook (folderPath : List String) (relPath : String) : String :=
  if folderPath.length > 0 then
    String.intercalate "/" (folderPath ++ [relPath])
  else relPath

/-- Embeds the common-prefix stripping loop of
ImportableAsset.relativePathTo. -/
def stripCommonFolders : List String → List String → List String × List String
  | a :: as, b :: bs =>
      if a = b then stripCommonFolders as bs else (a :: as, b :: bs)
  | as, bs => (as, bs)

/-- Embeds ImportableAsset.relativePathTo: the shared leading folder
segments are removed, the target's output filename is appended to the
target's remaining segments and one parent step is emitted per
remaining segment of this asset's path. -/
def relativePathTo (selfFolder targetFolder : List String) (targetOut : String) : String :=
  let sp := stripCommonFolders selfFolder targetFolder
  String.join (List.replicate sp.1.length "../") ++ String.intercalate "/" (sp.2 ++ [targetOut])

/-- Lookup in a JavaScript-Map-like association list (first match). -/
def getAssocO {A : Type} (m : List (Option String × A)) (k : Option String) : Option A :=
  (m.find? (fun q => q.1 = k)).map Prod.snd

/-- A character that may start a CSS identifier (unescaped subset: a
letter, an underscore or a non-ASCII character). -/
def cssIdentStart (c : Char) : Bool :=
  c.isAlpha || c = '_' || 128 ≤ c.toNat

/-- A character that may continue a CSS identifier (unescaped subset). -/
def cssIdentChar (c : Char) : Bool :=
  c.isAlpha || c.isDigit || c = '_' || c = '-' || 128 ≤ c.toNat

/-- Whether the canonical selector built by string concatenation of a
hash sign and the raw target id parses: it does exactly when the id is
a CSS identifier.  Escape sequences are not modelled (an id that would
need them reaches the fallback selector in the model). -/
def idSelectorOk : List Char → Bool
  | [] => false
  | ['-'] => false
  | '-' :: d :: ds => (cssIdentStart d || d = '-') && ds.all cssIdentChar
  | c :: rest => cssIdentStart c && rest.all cssIdentChar

/-- Whether the fallback attribute selector, built by interpolating the
raw target id between double quotes, parses: scanning the id as the
content of a double-quoted CSS string, a backslash escapes the next
character, while an unescaped double quote terminates the string early
(the rest of the interpolated id becomes malformed selector text), an
unescaped newline makes a bad string token, and a trailing backslash
escapes the closing quote and leaves the string unterminated. -/
def attrSelectorOkAux : List Char → Bool
  | [] => true
  | ['\\'] => false
  | '\\' :: _ :: rest => attrSelectorOkAux rest
  | '"' :: _ => false
  | '\n' :: _ => false
  | _ :: rest => attrSelectorOkAux rest

/-- The fallback attribute selector parse check on the raw target id. -/
def attrSelectorOk (s : List Char) : Bool :=
  attrSelectorOkAux s

/-- Embeds PageAsset.fragmentIdentifier.  The mark parameter stands for
markElementAsLinkTarget (Section 4 embeds its id selection; here only
the returned id matters).  Unparsed page: empty string.  Known target
id: the cached anchor.  Otherwise the element with the requested id is
looked up through two selectors: the canonical id selector is tried
first and, when the raw id makes it malformed, an attribute-equality
selector interpolating the raw id between double quotes is tried in
the catch branch — but that second call is unguarded, so when the
interpolated selector is malformed too (the id contains an unescaped
double quote, say) the lookup throws an uncaught SyntaxError, modelled
as the error result.  When either selector parses, both locate the
first element whose id attribute equals the requested string, which is
what the model does; a fragment-less call searches the literal id
"undefined" because JavaScript concatenates the undefined value into
the selector string.  A miss, or a mark that returns nothing, yields
the empty string; a marked element caches and returns its anchor. -/
def fragmentIdentifier (mark : ElementM → Option String) (p : PageModel)
    (targetID : Option String) : Except String (String × PageModel) :=
  match p.doc with
  | none => Except.ok ("", p)
  | some elems =>
    match getAssocO p.linkTargetMap targetID with
    | some id => Except.ok ("#^" ++ id, p)
    | none =>
      let searchId : String := match targetID with
        | some i => i
        | none => "undefined"
      if idSelectorOk searchId.data || attrSelectorOk searchId.data then
        match elems.find? (fun e => e.id = searchId) with
        | none => Except.ok ("", p)
        | some e =>
          match mark e with
          | none => Except.ok ("", p)
          | some id =>
            Except.ok ("#^" ++ id, { p with linkTargetMap := p.linkTargetMap ++ [(targetID, id)] })
      else Except.error "SyntaxError: invalid selector"

/-- Splitting a character list at a separator character
(String.prototype.split with a one-character separator). -/
def splitOnChar (sep : Char) : List Char → List (List Char)
  | [] => [[]]
  | c :: rest =>
      let r := splitOnChar sep rest
      if c = sep then [] :: r
      else
        match r with
        | h :: t => (c :: h) :: t
        | [] => [[c]]

/-- The split of an href at the hash separator, as a list of strings
(the source's href.split on the hash). -/
def jsSplitHash (s : String) : List String :=
  (splitOnChar '#' s.data).map String.mk

/-- Substring containment on character lists (String.prototype.includes). -/
def listContainsSub (sub : List Char) : List Char → Bool
  | [] => sub.isEmpty
  | c :: rest => List.isPrefixOf sub (c :: rest) || listContainsSub sub rest

/-- True when the href contains a scheme separator (the external-link
test of reconnectLinks). -/
def hasUriScheme (href : String) : Bool :=
  listContainsSub "://".data href.data

/-- Embeds the whitespace URL-encoding of reconnectLinks: every
whitespace character of the rewritten link is replaced by the percent
escape. -/
def jsSpaceEncode (s : String) : String :=
  ⟨s.data.foldr (fun c acc => if isJsWhitespace c then '%' :: '2' :: '0' :: acc else c :: acc) []⟩

/-- A bracket character of the link text escaping regex. -/
def isBracketChar (c : Char) : Bool :=
  c = '[' || c = ']'

/-- Embeds the link text sanitization of reconnectLinks: a backslash is
inserted before every maximal run of square brackets, processed
character-wise (the backslash is emitted when a bracket begins a new
run). -/
def escBracketAux : Bool → List Char → List Char
  | _, [] => []
  | prevB, c :: rest =>
      if isBracketChar c then
        if prevB then c :: escBracketAux true rest
        else '\\' :: c :: escBracketAux true rest
      else c :: escBracketAux false rest

/-- Bracket escaping of the link text of reconnectLinks. -/
def escBracketRuns (l : List Char) : List Char :=
  escBracketAux false l

/-- Book view used by link reconnection: the asset map of EpubBook
(source path to asset), in insertion order. -/
abbrev BookAssets : Type := List (String × AssetModel)

/-- Lookup of EpubBook.getAsset. -/
def getAsset (book : BookAssets) (path : String) : Option AssetModel :=
  (List.find? (fun q => q.1 = path) book).map Prod.snd

/-- JavaScript Map.set: replace in place when the key exists, append
otherwise. -/
def setAsset (book : BookAssets) (k : String) (v : AssetModel) : BookAssets :=
  if (List.find? (fun q => q.1 = k) book).isSome then
    List.map (fun q => if q.1 = k then (k, v) else q) book
  else book ++ [(k, v)]

/-- Embeds the body of the per-hyperlink arrow function of
PageAsset.reconnectLinks for one a element with an href attribute:
empty and external hrefs are skipped; the href is split at the hash
into path and optional fragment id; an empty path targets the page
itself, otherwise the book-relative path is looked up in the asset map;
only a PageAsset target causes a rewrite, every other case leaves the
hyperlink untouched.  On a rewrite the new href is the relative path to
the target's output location plus the target's fragment identifier,
with whitespace percent-encoded, and square brackets in the link text
are escaped; an uncaught throw of the fragment identifier lookup
propagates.  The updated target page (its link target map may have
grown) is returned alongside: first component the rewritten anchor,
second the updated book map, third the updated self page.  (A page that
links to itself through its own map key is modelled as updating the map
entry, not the iterating page.) -/
def reconnectAnchor (mark : ElementM → Option String) (book : BookAssets)
    (self : PageModel) (a : AnchorM) : Except String (AnchorM × BookAssets × PageModel) :=
  if a.href = "" then Except.ok (a, book, self)
  else if hasUriScheme a.href then Except.ok (a, book, self)
  else
    let parts := jsSplitHash a.href
    let path := parts.headD ""
    let id? : Option String := parts[1]?
    if path = "" then
      match fragmentIdentifier mark self id? with
      | Except.error m => Except.error m
      | Except.ok fr =>
        let link := relativePathTo self.folderPath self.folderPath (pageOutputFilename self) ++ fr.1
        Except.ok
          ({ href := jsSpaceEncode link, textContent := ⟨escBracketRuns a.textContent.data⟩ },
           book, fr.2)
    else
      match getAsset book (pathFromBook self.folderPath path) with
      | some (AssetModel.pageA tp) =>
        match fragmentIdentifier mark tp id? with
        | Except.error m => Except.error m
        | Except.ok fr =>
          let link := relativePathTo self.folderPath tp.folderPath (pageOutputFilename tp) ++ fr.1
          Except.ok
            ({ href := jsSpaceEncode link, textContent := ⟨escBracketRuns a.textContent.data⟩ },
             setAsset book (pathFromBook self.folderPath path) (AssetModel.pageA fr.2), self)
      | _ => Except.ok (a, book, self)

/-- Embeds PageAsset.reconnectLinks: the per-hyperlink body is run over
the page's hyperlink elements in document order, threading the book map
and the page state.  An uncaught throw inside the per-hyperlink body
escapes the iteration and aborts the rest of the pass (in the source
the hyperlinks already visited keep their mutations; the model reports
the escaping exception). -/
def reconnectLinksAux (mark : ElementM → Option String) :
    List AnchorM → BookAssets → PageModel
      → Except String (List AnchorM × BookAssets × PageModel)
  | [], book, self => Except.ok ([], book, self)
  | a :: rest, book, self =>
      match reconnectAnchor mark book self a with
      | Except.error m => Except.error m
      | Except.ok r1 =>
        match reconnectLinksAux mark rest r1.2.1 r1.2.2 with
        | Except.error m => Except.error m
        | Except.ok r2 => Except.ok (r1.1 :: r2.1, r2.2.1, r2.2.2)

/-- Embeds PageAsset.reconnectLinks on a page's own anchor list. -/
def reconnectLinks (mark : ElementM → Option String) (book : BookAssets)
    (self : PageModel) : Except String (List AnchorM × BookAssets × PageModel) :=
  reconnectLinksAux mark self.anchors book self

/-- Embeds PageAsset.parse as far as the page state is concerned: the
owning book is bound, the toc flag stored, the parsed document
captured, and the document title adopted when it is not empty.  (The
entity pre-replacement and the body transforms of Section 3 act on the
document content and do not touch the fields modelled here.) -/
def pageParse (p : PageModel) (doc : List ElementM) (anchors : List AnchorM)
    (docTitle : String) (toc : Bool) : PageModel :=
  { p with
    bookSet := true
    tocFlag := toc
    doc := some doc
    anchors := anchors
    pageTitle := if docTitle ≠ "" then some docTitle else p.pageTitle }

/-- Embeds the title assignment of the NavLink constructor
(epub-assets.ts): a page referenced from the content map adopts the
navigation label as its title only when it has no title yet and the
label text is present and non-empty (first-seen label wins). -/
def assignNavLabel (p : PageModel) (navText : Option String) : PageModel :=
  match p.pageTitle with
  | some _ => p
  | none =>
    match navText with
    | none => p
    | some t => if t = "" then p else { p with pageTitle := some t }

/- ================================================================
   Section 6: asset import to the vault
   (epub-assets.ts import methods and getVaultOutputPath)
   ================================================================ -/

/-- An effect on the output store. -/
inductive VaultEvent where
  | folderCreated (path : String)
  | fileCreated (path : String)
  | binaryCreated (path : String) (bytes : List Nat)
deriving DecidableEq

/-- The successive folder paths visited by getVaultOutputPath. -/
def folderPaths (base : String) : List String → List String
  | [] => []
  | f :: rest =>
      let nb := base ++ "/" ++ f
      nb :: folderPaths nb rest

/-- Embeds ImportableAsset.getVaultOutputPath: every missing folder on
the asset's folder path below the book output folder is created (the
isExisting parameter is the pre-state folder-existence check of the
vault adapter), and the full vault path of the asset's output location
is returned. -/
def getVaultOutputPath (isExisting : String → Bool) (bookFolderPath : String)
    (folderPath : List String) (outFilename : String) : List VaultEvent × String :=
  ((folderPaths bookFolderPath folderPath).filterMap
      (fun q => if isExisting q then none else some (VaultEvent.folderCreated q)),
   bookFolderPath ++ "/" ++ makeAssetPath folderPath outFilename)

/-- Embeds MediaAsset.import: the output path is resolved (creating
missing folders) and the bytes read from the archive entry are written
unmodified as a binary file at that path. -/
def mediaImport (isExisting : String → Bool) (bookFolderPath : String)
    (m : MediaAssetM) : List VaultEvent :=
  let vp := getVaultOutputPath isExisting bookFolderPath m.folderPath (mediaOutputFilename m)
  vp.1 ++ [VaultEvent.binaryCreated vp.2 m.content]

/-- Embeds PageAsset.import: when the page document or the owning book
is unset the error is thrown before anything is resolved or written
(first component: the effects on the output store, second: normal or
exceptional termination).  In the normal case the output path is
resolved and the note is written there (the note body, frontmatter plus
converted Markdown, is opaque to the claims about this method). -/
def pageImport (isExisting : String → Bool) (bookFolderPath : String)
    (p : PageModel) : List VaultEvent × Except String Unit :=
  if p.doc.isNone || !p.bookSet then
    ([], Except.error "Book page not available for import")
  else
    let vp := getVaultOutputPath isExisting bookFolderPath p.folderPath (pageOutputFilename p)
    (vp.1 ++ [VaultEvent.fileCreated vp.2], Except.ok ())

/- ================================================================
   Section 7: the import orchestrator
   (EpubBook of src/formats/ebooks/epub/epub-import.ts; the progress and
   error accounting embedded here follows the newest revision of the
   class, the one with the per-asset try/catch write loop, the about
   page and the entry-count-plus-one denominator, found in this
   repository as src/unnamed/part_014 and src/unnamed/part_016; the
   earlier revision checked into src/src/formats/ebooks/epub/
   epub-import.ts is embedded separately in Section 8)
   ================================================================ -/

/-- An archive entry as the orchestrator sees it: full path inside the
ZIP, display name and file extension. -/
structure EntryModel where
  filepath : List Char
  name : String
  extension : String
deriving DecidableEq

/-- A report to the progress sink (the ImportContext). -/
inductive ReportEvent where
  | statusMsg (s : String)
  | skipped (s : String)
  | noteSuccess (s : String)
  | attachSuccess (s : String)
  | failed (item msg : String)
  | progress (processed total : Nat)
deriving DecidableEq

/-- Asset classification outcome of the mimetype switch. -/
inductive AssetKindE where
  | pageK
  | tocK
  | mediaK
deriving DecidableEq

/-- JavaScript Map.set on an association list: replace in place when
the key exists, append otherwise. -/
def mapSet {A : Type} (m : List (String × A)) (k : String) (v : A) : List (String × A) :=
  if (List.find? (fun q => q.1 = k) m).isSome then
    List.map (fun q => if q.1 = k then (k, v) else q) m
  else m ++ [(k, v)]

/-- The loop state of EpubBook.addAssets: the processed counter, the
asset map (source path to classification) and the reports issued so
far. -/
structure AddStateV2 where
  processed : Nat
  assets : List (String × AssetKindE)
  events : List ReportEvent
deriving DecidableEq

/-- The book-relative source path of an entry (getSourcePath): the
file path with the source prefix sliced off. -/
def entrySourcePath (sourcePre : List Char) (e : EntryModel) : String :=
  ⟨e.filepath.drop sourcePre.length⟩

/-- The startsWith test of the addAssets loop. -/
def entryUnderPre (sourcePre : List Char) (e : EntryModel) : Bool :=
  decide (e.filepath.take sourcePre.length = sourcePre)

/-- Embeds one iteration of the entry loop of EpubBook.addAssets (the
newest revision): entries outside the book prefix are reported skipped
and advance progress; by declared mimetype, page and content-map
entries become assets parsed in place (no progress report yet),
stylesheets and unlisted entries advance progress (unlisted ones other
than the manifest with a skip report), anything else with an extension
becomes a media asset and extension-less leftovers are reported skipped
and advance progress.  The mimeOf parameter is the mimetype map built
by parseManifest; T is the progress denominator fixed before the loop.
(The single-quote characters the source puts around the entry name in
skip and failure messages are omitted throughout this embedding.) -/
def addAssetStepV2 (T : Nat) (sourcePre : List Char) (mimeOf : String → Option String)
    (st : AddStateV2) (e : EntryModel) : AddStateV2 :=
  if entryUnderPre sourcePre e then
    let epubPath := entrySourcePath sourcePre e
    let mt := (mimeOf epubPath).getD "?"
    if mt = "text/html" ∨ mt = "application/xhtml+xml" then
      { st with assets := mapSet st.assets epubPath AssetKindE.pageK }
    else if mt = "application/x-dtbncx+xml" then
      { st with assets := mapSet st.assets epubPath AssetKindE.tocK }
    else if mt = "text/css" then
      { st with processed := st.processed + 1,
                events := st.events ++ [ReportEvent.progress (st.processed + 1) T] }
    else if mt = "?" then
      { st with processed := st.processed + 1,
                events := st.events
                  ++ (if e.extension ≠ "opf" then
                        [ReportEvent.skipped (e.name ++ " is not part of the book")]
                      else [])
                  ++ [ReportEvent.progress (st.processed + 1) T] }
    else if e.extension ≠ "" then
      { st with assets := mapSet st.assets epubPath AssetKindE.mediaK }
    else
      { st with processed := st.processed + 1,
                events := st.events
                  ++ [ReportEvent.skipped (e.name ++ " has unsupported mimetype: " ++ mt),
                      ReportEvent.progress (st.processed + 1) T] }
  else
    { st with processed := st.processed + 1,
              events := st.events
                ++ [ReportEvent.skipped (e.name ++ " is not part of the book"),
                    ReportEvent.progress (st.processed + 1) T] }

/-- Embeds EpubBook.addAssets (newest revision): the denominator is the
entry count plus one for the book's about page; without a manifest
entry the method returns at once with nothing reported and nothing
classified; otherwise a status line is reported and every entry runs
through the classification loop.  (The toc bookkeeping and the
cover-image heuristics of the method touch neither the progress container
nor the asset map and are not modelled.) -/
def addAssetsV2 (sourcePre : List Char) (mimeOf : String → Option String)
    (entries : List EntryModel) : AddStateV2 :=
  match entries.find? (fun e => e.extension = "opf") with
  | none => { processed := 0, assets := [], events := [] }
  | some _ =>
      entries.foldl (addAssetStepV2 (entries.length + 1) sourcePre mimeOf)
        { processed := 0, assets := [],
          events := [ReportEvent.statusMsg "Parsing epub file contents"] }

/-- Embeds the final write loop of the orchestrator (the newest
revision of EpubBook.importAssets): the cancellation flag is polled at
the top of each iteration (the cancelled parameter gives the flag at
the i-th poll of this loop); each asset's import is awaited inside a
try/catch, success is reported as attachment or note by the asset's
output filename, an exception is caught and reported failed with the
output filename and the message, and the progress counter advances once
per asset either way.  The imp parameter gives each asset's import
outcome by source path, outName its output filename. -/
def writeLoop (cancelled : Nat → Bool) (imp : String → Except String Unit)
    (outName : String → String) (T : Nat) :
    List (String × AssetKindE) → Nat → Nat → List ReportEvent
  | [], _, _ => []
  | (href, k) :: rest, processed, i =>
      if cancelled i then []
      else
        (match imp href with
         | Except.ok _ =>
             [if k = AssetKindE.mediaK then ReportEvent.attachSuccess (outName href)
              else ReportEvent.noteSuccess (outName href)]
         | Except.error msg => [ReportEvent.failed (outName href) msg])
        ++ ReportEvent.progress (processed + 1) T
          :: writeLoop cancelled imp outName T rest (processed + 1) (i + 1)

/-- Embeds EpubBook.importAssets (newest revision): a pre-existing
output folder fails the whole import with a single report; otherwise
the book folder is created, a status line reported, the link
reconnection pass runs over the assets polling cancellation (it emits
no reports; an early cancellation return leaves the trace at the status
line), then the about page is written (one note success and one
progress step) and the write loop runs over all assets.  The rc
parameter gives the cancellation flag at the reconnection polls. -/
def importAssetsV2 (rc : Nat → Bool) (cancelled : Nat → Bool) (folderExists : Bool)
    (title bookFolderPath titleFilename : String) (imp : String → Except String Unit)
    (outName : String → String) (assets : List (String × AssetKindE))
    (processed0 T : Nat) : List ReportEvent :=
  if folderExists then
    [ReportEvent.failed ("import of " ++ title ++ " failed")
      "The output folder for this book already exists!"]
  else if (List.range assets.length).any (fun i => rc i) then
    [ReportEvent.statusMsg ("Saving Ebook to " ++ bookFolderPath)]
  else
    ReportEvent.statusMsg ("Saving Ebook to " ++ bookFolderPath)
      :: ReportEvent.noteSuccess titleFilename
      :: ReportEvent.progress (processed0 + 1) T
      :: writeLoop cancelled imp outName T assets (processed0 + 1) 0

/-- Embeds EpubBook.import (newest revision): addAssets runs on the ZIP
entries, then importAssets writes everything; the trace is the
concatenation of the two phases' reports, with the denominator fixed at
the entry count plus one. -/
def importRunV2 (sourcePre : List Char) (mimeOf : String → Option String)
    (rc cancelled : Nat → Bool) (folderExists : Bool)
    (title bookFolderPath titleFilename : String) (imp : String → Except String Unit)
    (outName : String → String) (entries : List EntryModel) : List ReportEvent :=
  let a := addAssetsV2 sourcePre mimeOf entries
  a.events ++ importAssetsV2 rc cancelled folderExists title bookFolderPath titleFilename
    imp outName a.assets a.processed (entries.length + 1)

/-- Skip classification of one entry (the entries of the addAssets loop
that advance progress during the loop instead of becoming assets). -/
def isSkipEntry (sourcePre : List Char) (mimeOf : String → Option String)
    (e : EntryModel) : Bool :=
  if entryUnderPre sourcePre e then
    let mt := (mimeOf (entrySourcePath sourcePre e)).getD "?"
    if mt = "text/html" ∨ mt = "application/xhtml+xml" then false
    else if mt = "application/x-dtbncx+xml" then false
    else if mt = "text/css" then true
    else if mt = "?" then true
    else decide (e.extension = "")
  else true

/-- The classification of an asset entry. -/
def entryKind (sourcePre : List Char) (mimeOf : String → Option String)
    (e : EntryModel) : AssetKindE :=
  let mt := (mimeOf (entrySourcePath sourcePre e)).getD "?"
  if mt = "text/html" ∨ mt = "application/xhtml+xml" then AssetKindE.pageK
  else if mt = "application/x-dtbncx+xml" then AssetKindE.tocK
  else AssetKindE.mediaK

/-- The asset records appended by the addAssets loop, in entry order. -/
def assetRecsOf (sourcePre : List Char) (mimeOf : String → Option String)
    (entries : List EntryModel) : List (String × AssetKindE) :=
  entries.filterMap (fun e =>
    if isSkipEntry sourcePre mimeOf e then none
    else some (entrySourcePath sourcePre e, entryKind sourcePre mimeOf e))

/-- The number of skip-classified entries. -/
def skipCount (sourcePre : List Char) (mimeOf : String → Option String)
    (entries : List EntryModel) : Nat :=
  entries.countP (isSkipEntry sourcePre mimeOf)

/-- The skip reports one skip-classified entry contributes (without its
progress step). -/
def skipEventsOf (sourcePre : List Char) (mimeOf : String → Option String)
    (e : EntryModel) : List ReportEvent :=
  if entryUnderPre sourcePre e then
    let mt := (mimeOf (entrySourcePath sourcePre e)).getD "?"
    if mt = "text/css" then []
    else if mt = "?" then
      if e.extension ≠ "opf" then [ReportEvent.skipped (e.name ++ " is not part of the book")]
      else []
    else [ReportEvent.skipped (e.name ++ " has unsupported mimetype: " ++ mt)]
  else [ReportEvent.skipped (e.name ++ " is not part of the book")]

/-- The progress projection of a report trace. -/
def progressOf (e : ReportEvent) : Option (Nat × Nat) :=
  match e with
  | ReportEvent.progress p t => some (p, t)
  | _ => none

/- ================================================================
   Section 8: the earlier orchestrator revision
   (EpubBook of src/src/formats/ebooks/epub/epub-import.ts) as far as
   the missing-manifest path is concerned
   ================================================================ -/

/-- Outcome of one whole import run of the earlier orchestrator
revision: the reports issued, the folders created, the files written
and the uncaught exception, if one escaped. -/
structure RunV1Result where
  events : List ReportEvent
  folders : List String
  files : List String
  err : Option String
deriving DecidableEq

/-- Embeds importEpubBook over EpubBook.addAssets and EpubBook.import
of src/src/formats/ebooks/epub/epub-import.ts on the missing-manifest
path, and the import phase gating on the happy path.  addAssets fixes
fileCount, looks for an entry with the opf extension and returns at
once when there is none, reporting nothing; importEpubBook then still
calls EpubBook.import, whose first statement evaluates
titleToBasename(this.title); the title getter dereferences this.meta,
which parseManifest never set, so a TypeError is thrown before the
existence check and before any folder is created or file written.  When
the manifest exists the phase proceeds: pre-existing output folder
means a single failure report and no output; otherwise the book folder
is created (the body beyond that point is abstracted by the
continueRun parameter, which receives the book folder path). -/
def importRunV1 (folderExists : Bool) (title outputFolderPath : String)
    (continueRun : String → RunV1Result) (entries : List EntryModel) : RunV1Result :=
  match entries.find? (fun e => e.extension = "opf") with
  | none =>
      { events := [], folders := [], files := [],
        err := some "TypeError: this.meta is undefined" }
  | some _ =>
      if folderExists then
        { events := [ReportEvent.failed ("import of " ++ title ++ " failed")
            "The output folder already exists"],
          folders := [], files := [], err := none }
      else continueRun (outputFolderPath ++ "/" ++ titleToBasename title)

/- ================================================================
   Helper lemmas (sanitizer)
   ================================================================ -/

/-- Sequentially replacing characters in a string equals mapping the
sequential character-level substitution over it. -/
theorem foldl_replace_eq_map (rules : List (Char × Char)) (s : List Char) :
    rules.foldl (fun s p => jsReplaceAllChar p.1 p.2 s) s
      = s.map (fun c => rules.foldl (fun c p => if c = p.1 then p.2 else c) c) := by
  induction rules generalizing s with
  | nil => simp
  | cons r rs ih =>
    simp only [List.foldl_cons]
    rw [show jsReplaceAllChar r.1 r.2 s = s.map (fun c => if c = r.1 then r.2 else c) from rfl]
    rw [ih, List.map_map]
    rfl

/-- Characters that are not in the substitution table are left alone by
the character-level substitution. -/
theorem substFilenameChar_of_not_trigger (c : Char)
    (h : c ∉ FILENAME_TRANSFORMATIONS.map Prod.fst) :
    substFilenameChar c = c := by
  simp only [FILENAME_TRANSFORMATIONS, List.map_cons, List.map_nil, List.mem_cons,
    List.not_mem_nil, or_false, not_or] at h
  obtain ⟨h1, h2, h3, h4, h5, h6, h7, h8, h9, h10, h11, h12, h13, h14⟩ := h
  simp [substFilenameChar, FILENAME_TRANSFORMATIONS,
    h1, h2, h3, h4, h5, h6, h7, h8, h9, h10, h11, h12, h13, h14]

/-- The character-level substitution of the filename table is idempotent:
replacement characters are never triggers (the forward slash produced for
a backslash is consumed by the following slash rule inside a single
pass). -/
theorem substFilenameChar_idem (c : Char) :
    substFilenameChar (substFilenameChar c) = substFilenameChar c := by
  by_cases h : c ∈ FILENAME_TRANSFORMATIONS.map Prod.fst
  · simp only [FILENAME_TRANSFORMATIONS, List.map_cons, List.map_nil, List.mem_cons,
      List.not_mem_nil, or_false] at h
    rcases h with rfl|rfl|rfl|rfl|rfl|rfl|rfl|rfl|rfl|rfl|rfl|rfl|rfl|rfl <;> rfl
  · rw [substFilenameChar_of_not_trigger c h]
    exact substFilenameChar_of_not_trigger c h

/-- Mapping a function that fixes every member of a list is the
identity on that list. -/
theorem map_fixed {α : Type} {f : α → α} {l : List α}
    (h : ∀ a ∈ l, f a = a) : l.map f = l := by
  induction l with
  | nil => rfl
  | cons a t ih =>
    simp only [List.map_cons, h a (by simp)]
    rw [ih (fun b hb => h b (by simp [hb]))]

/-- A character of the trimmed string is a character of the string. -/
theorem mem_jsTrim {c : Char} {u : List Char} (h : c ∈ jsTrim u) : c ∈ u := by
  simp only [jsTrim, List.mem_reverse] at h
  have h2 := (List.dropWhile_sublist (p := isJsWhitespace)
    (l := (u.dropWhile isJsWhitespace).reverse)).mem h
  simp only [List.mem_reverse] at h2
  exact (List.dropWhile_sublist (p := isJsWhitespace) (l := u)).mem h2

/-- Trimming is expressed through dropWhile and rdropWhile. -/
theorem jsTrim_eq_rdropWhile (u : List Char) :
    jsTrim u = List.rdropWhile isJsWhitespace (u.dropWhile isJsWhitespace) := by
  simp [jsTrim, List.rdropWhile]

/-- JavaScript trim is idempotent. -/
theorem jsTrim_idem (s : List Char) : jsTrim (jsTrim s) = jsTrim s := by
  rw [jsTrim_eq_rdropWhile, jsTrim_eq_rdropWhile]
  have hxself : (s.dropWhile isJsWhitespace).dropWhile isJsWhitespace
      = s.dropWhile isJsWhitespace := List.dropWhile_idempotent isJsWhitespace s
  have hyd : (List.rdropWhile isJsWhitespace (s.dropWhile isJsWhitespace)).dropWhile
      isJsWhitespace = List.rdropWhile isJsWhitespace (s.dropWhile isJsWhitespace) := by
    rcases hpre : List.rdropWhile isJsWhitespace (s.dropWhile isJsWhitespace) with _ | ⟨a, ys⟩
    · simp
    · obtain ⟨t, ht⟩ := List.rdropWhile_prefix
        (p := isJsWhitespace) (l := s.dropWhile isJsWhitespace)
      rw [hpre] at ht
      have hxa : s.dropWhile isJsWhitespace = a :: (ys ++ t) := by
        rw [← ht]; rfl
      have hlen : 0 < (s.dropWhile isJsWhitespace).length := by
        rw [hxa]; simp
      have hpa := List.dropWhile_get_zero_not (p := isJsWhitespace) s hlen
      have hget : (s.dropWhile isJsWhitespace).get ⟨0, hlen⟩ = a := by
        simp [hxa]
      rw [hget] at hpa
      simp only [Bool.not_eq_true] at hpa
      simp [List.dropWhile_cons, hpa]
  rw [hyd, List.rdropWhile_idempotent]

/-- The list-level sanitizer is trimming after a single character map. -/
theorem titleToBasenameL_eq_map (u : List Char) :
    titleToBasenameL u = jsTrim (u.map substFilenameChar) := by
  unfold titleToBasenameL
  rw [foldl_replace_eq_map]
  rfl

/-- The list-level sanitizer is idempotent. -/
theorem titleToBasenameL_idem (t : List Char) :
    titleToBasenameL (titleToBasenameL t) = titleToBasenameL t := by
  rw [titleToBasenameL_eq_map, titleToBasenameL_eq_map]
  have hfix : (jsTrim (t.map substFilenameChar)).map substFilenameChar
      = jsTrim (t.map substFilenameChar) := by
    apply map_fixed
    intro a ha
    obtain ⟨b, _, rfl⟩ := List.mem_map.mp (mem_jsTrim ha)
    exact substFilenameChar_idem b
  rw [hfix, jsTrim_idem]

/-- C4: For all strings s, the filename sanitizer is idempotent:
titleToBasename (titleToBasename s) equals titleToBasename s.  (The
embedding is a pure Lean function of its argument, so the purity and
determinism part of the claim holds by construction.) -/
theorem titleToBasename_def (s : String) :
    titleToBasename s = ⟨titleToBasenameL s.data⟩ := rfl

theorem data_mk_eq (l : List Char) : (String.mk l).data = l := rfl

theorem C4_titleToBasename_idempotent (s : String) :
    titleToBasename (titleToBasename s) = titleToBasename s := by
  simp only [titleToBasename_def, data_mk_eq]
  rw [titleToBasenameL_idem]

example : titleToBasename "  a/b\\c*d?  " = "a╱b╱c✱d❓" := by decide
example : titleToBasename "[x]: #1 ^y & z|w" = "⟦x⟧꞉ ＃1 ⌃y ＆ z∣w" := by decide

/- ================================================================
   Helper lemmas and claim C5 (code-block normalization)
   ================================================================ -/

/-- After injectCodeChildren runs, the first element child of the
rewritten pre child list is a code element. -/
theorem injectCodeChildren_code (children : List HNode) :
    firstElementIsCode (injectCodeChildren children) = true := by
  unfold injectCodeChildren
  by_cases h : firstElementIsCode (children.dropWhile isEmptyTextNode) = true
  · simp [h]
  · simp only [h]
    simp [firstElementIsCode, firstElementChild, isElemNode, List.find?]

/-- The list invariant is the conjunction of the node invariant over
the members. -/
theorem preOkList_eq_all (l : List HNode) : preOkList l = l.all preOk := by
  induction l with
  | nil => rfl
  | cons n rest ih => simp [preOkList, ih]

/-- Dropping leading nodes preserves the list invariant. -/
theorem preOkList_dropWhile (l : List HNode) (h : preOkList l = true) :
    preOkList (l.dropWhile isEmptyTextNode) = true := by
  rw [preOkList_eq_all] at h ⊢
  rw [List.all_eq_true] at h ⊢
  intro x hx
  exact h x ((List.dropWhile_sublist (p := isEmptyTextNode) (l := l)).mem hx)

/-- Wrapping the children of a pre preserves the invariant inside. -/
theorem preOkList_injectCodeChildren (children : List HNode)
    (h : preOkList children = true) :
    preOkList (injectCodeChildren children) = true := by
  unfold injectCodeChildren
  have hrest := preOkList_dropWhile children h
  by_cases hc : firstElementIsCode (children.dropWhile isEmptyTextNode) = true
  · simpa [hc] using hrest
  · simp only [hc, if_neg]
    simp [preOkList, preOk, hrest]

/-- The code-block normalization establishes the invariant on every
subtree. -/
theorem preOk_injectCodeBlock : ∀ n, preOk (injectCodeBlock n) = true :=
  injectCodeBlock.induct (fun n => preOk (injectCodeBlock n) = true)
    (fun l => preOkList (injectCodeBlockList l) = true)
    (fun s => by simp [injectCodeBlock, preOk])
    (fun attrs children ih => by
      show preOk (injectCodeBlock (HNode.elem "pre" attrs children)) = true
      rw [show injectCodeBlock (HNode.elem "pre" attrs children)
          = HNode.elem "pre" attrs (injectCodeChildren (injectCodeBlockList children)) from by
        simp [injectCodeBlock]]
      simp only [preOk, Bool.and_eq_true, if_pos rfl]
      exact And.intro (injectCodeChildren_code _)
        (preOkList_injectCodeChildren _ (ih : preOkList (injectCodeBlockList children) = true)))
    (fun tag attrs children htag ih => by
      show preOk (injectCodeBlock (HNode.elem tag attrs children)) = true
      rw [show injectCodeBlock (HNode.elem tag attrs children)
          = HNode.elem tag attrs (injectCodeBlockList children) from by
        simp [injectCodeBlock, htag]]
      simp only [preOk, Bool.and_eq_true]
      refine And.intro ?_ (ih : preOkList (injectCodeBlockList children) = true)
      simp [htag])
    (by simp [injectCodeBlockList, preOkList])
    (fun n rest ih1 ih2 => by simp [injectCodeBlockList, preOkList, ih1, ih2])

/-- C5: After running code-block normalization (injectCodeBlock) on any
HTML subtree, every preformatted (pre) element in that subtree has a
code element as its first element child; and for every pre whose first
meaningful child (after stripping leading whitespace-only text nodes)
is not a code element, a code element is synthesized and all of the
pre's children are moved into it (the pre's child list becomes the
single synthesized code element holding the stripped children). -/
theorem C5_injectCodeBlock_normalizes (n : HNode) :
    preOk (injectCodeBlock n) = true ∧
    (∀ ch : List HNode, firstElementIsCode (ch.dropWhile isEmptyTextNode) = false →
      injectCodeChildren ch
        = [HNode.elem "code" [("class", "language-undefined")] (ch.dropWhile isEmptyTextNode)]) := by
  refine And.intro (preOk_injectCodeBlock n) ?_
  intro ch hch
  simp [injectCodeChildren, hch]

/-- C5 witness: a pre whose children are a blank text node, raw text
and a span gets its children wrapped in a synthesized code element, and
the invariant holds on the result. -/
theorem C5_witness :
    preOk (injectCodeBlock (HNode.elem "div" []
      [HNode.elem "pre" [] [HNode.text "  ", HNode.text "x := 1",
        HNode.elem "span" [] []]])) = true ∧
    injectCodeChildren [HNode.text "  ", HNode.text "x := 1", HNode.elem "span" [] []]
      = [HNode.elem "code" [("class", "language-undefined")]
          [HNode.text "x := 1", HNode.elem "span" [] []]] := by
  refine And.intro
    (C5_injectCodeBlock_normalizes (HNode.elem "div" []
      [HNode.elem "pre" [] [HNode.text "  ", HNode.text "x := 1",
        HNode.elem "span" [] []]])).1 ?_
  have h := (C5_injectCodeBlock_normalizes (HNode.text "")).2
    [HNode.text "  ", HNode.text "x := 1", HNode.elem "span" [] []] (by decide)
  rw [h]
  rfl

/- ================================================================
   Claim C8 (media assets are copied byte for byte)
   ================================================================ -/

/-- C8: For every MediaAsset, import writes the source archive entry's
bytes to the output store unmodified (the single binary write carries
exactly the bytes read from the archive entry, at the asset's resolved
output path), and its output filename equals its source filename. -/
theorem C8_mediaImport_copies_bytes (isExisting : String → Bool)
    (bookFolderPath : String) (m : MediaAssetM) :
    (mediaImport isExisting bookFolderPath m).filterMap
        (fun e => match e with
          | VaultEvent.binaryCreated _ b => some b
          | _ => none) = [m.content] ∧
    (mediaImport isExisting bookFolderPath m).getLast?
      = some (VaultEvent.binaryCreated
          (bookFolderPath ++ "/" ++ makeAssetPath m.folderPath (mediaSourceFilename m))
          m.content) ∧
    mediaOutputFilename m = mediaSourceFilename m := by
  refine And.intro ?_ (And.intro ?_ rfl)
  · unfold mediaImport getVaultOutputPath
    rw [List.filterMap_append, List.filterMap_filterMap]
    have h1 : ∀ q : String,
        ((if isExisting q then none else some (VaultEvent.folderCreated q)).bind
          (fun e => match e with
            | VaultEvent.binaryCreated _ b => some b
            | _ => none) : Option (List Nat)) = none := by
      intro q
      by_cases hq : isExisting q <;> simp [hq]
    simp [h1]
  · unfold mediaImport getVaultOutputPath
    simp [mediaOutputFilename]

/- ================================================================
   Claim C9 (unparsed page import fails atomically)
   ================================================================ -/

/-- C9: For every PageAsset on which parse has not completed (its
document or owning book is unset), calling import throws the error
with message Book page not available for import before any folder is
created or file is written: the effect list is empty and the result is
the exceptional termination. -/
theorem C9_pageImport_guard (isExisting : String → Bool)
    (bookFolderPath : String) (p : PageModel)
    (h : p.doc = none ∨ p.bookSet = false) :
    pageImport isExisting bookFolderPath p
      = ([], Except.error "Book page not available for import") := by
  unfold pageImport
  rcases h with h | h <;> simp [h]

/-- C9 witness: a page that was never parsed. -/
theorem C9_witness :
    pageImport (fun _ => false) "out/book"
        { folderPath := ["text"], basename := "ch1", pageTitle := none,
          doc := none, anchors := [], bookSet := false, tocFlag := false,
          linkTargetMap := [] }
      = ([], Except.error "Book page not available for import") :=
  C9_pageImport_guard (fun _ => false) "out/book" _ (Or.inl rfl)

/- ================================================================
   Claim C10 (page output filename from resolved title)
   ================================================================ -/

/-- A page whose title is resolved keeps it across any further
navigation label assignments (first-seen label wins). -/
theorem assignNavLabel_keeps_some (p : PageModel) (x : Option String) (t : String)
    (h : p.pageTitle = some t) : (assignNavLabel p x).pageTitle = some t := by
  unfold assignNavLabel
  rw [h]
  exact h

/-- Folding navigation label assignments keeps a resolved title. -/
theorem foldl_assignNavLabel_keeps_some (ns : List (Option String)) (p : PageModel)
    (t : String) (h : p.pageTitle = some t) :
    (ns.foldl assignNavLabel p).pageTitle = some t := by
  induction ns generalizing p with
  | nil => exact h
  | cons x rest ih => exact ih _ (assignNavLabel_keeps_some p x t h)

/-- Navigation label assignment never changes the source basename. -/
theorem foldl_assignNavLabel_basename (ns : List (Option String)) (p : PageModel) :
    (ns.foldl assignNavLabel p).basename = p.basename := by
  induction ns generalizing p with
  | nil => rfl
  | cons x rest ih =>
    rw [List.foldl_cons, ih]
    unfold assignNavLabel
    rcases hp : p.pageTitle with _ | t
    · rcases x with _ | s
      · rfl
      · by_cases hs : s = "" <;> simp [hs]
    · rfl

/-- A page with no title stays titleless exactly when every offered
navigation label is absent or empty. -/
theorem foldl_assignNavLabel_none_iff (ns : List (Option String)) (p : PageModel)
    (hp : p.pageTitle = none) :
    (ns.foldl assignNavLabel p).pageTitle = none ↔
      ∀ x ∈ ns, x = none ∨ x = some "" := by
  induction ns generalizing p with
  | nil => simpa using hp
  | cons x rest ih =>
    rw [List.foldl_cons]
    rcases x with _ | s
    · rw [show assignNavLabel p none = p from by unfold assignNavLabel; rw [hp]]
      rw [ih p hp]
      simp
    · by_cases hs : s = ""
      · subst hs
        rw [show assignNavLabel p (some "") = p from by unfold assignNavLabel; rw [hp]; rfl]
        rw [ih p hp]
        simp
      · have hset : (assignNavLabel p (some s)).pageTitle = some s := by
          unfold assignNavLabel
          rw [hp]
          simp [hs]
        rw [foldl_assignNavLabel_keeps_some rest _ s hset]
        simp [hs]

/-- C10: a page is created unparsed, parsed once (adopting the document
title when it is non-empty) and then offered any sequence of navigation
labels.  Its title stays unresolved exactly when the document title was
empty and every navigation label was absent or empty; in that case
outputFilename is the sanitized source basename with the Markdown
extension appended, and otherwise it is the sanitized resolved title
with the Markdown extension appended. -/
theorem C10_pageOutputFilename (folderPath : List String) (basename : String)
    (doc : List ElementM) (anchors : List AnchorM) (docTitle : String) (toc : Bool)
    (ns : List (Option String)) :
    ((ns.foldl assignNavLabel (pageParse
        { folderPath := folderPath, basename := basename, pageTitle := none,
          doc := none, anchors := [], bookSet := false, tocFlag := false,
          linkTargetMap := [] } doc anchors docTitle toc)).pageTitle = none ↔
      (docTitle = "" ∧ ∀ x ∈ ns, x = none ∨ x = some "")) ∧
    ((ns.foldl assignNavLabel (pageParse
        { folderPath := folderPath, basename := basename, pageTitle := none,
          doc := none, anchors := [], bookSet := false, tocFlag := false,
          linkTargetMap := [] } doc anchors docTitle toc)).pageTitle = none →
      pageOutputFilename (ns.foldl assignNavLabel (pageParse
        { folderPath := folderPath, basename := basename, pageTitle := none,
          doc := none, anchors := [], bookSet := false, tocFlag := false,
          linkTargetMap := [] } doc anchors docTitle toc))
        = titleToBasename basename ++ ".md") ∧
    (∀ t, (ns.foldl assignNavLabel (pageParse
        { folderPath := folderPath, basename := basename, pageTitle := none,
          doc := none, anchors := [], bookSet := false, tocFlag := false,
          linkTargetMap := [] } doc anchors docTitle toc)).pageTitle = some t →
      pageOutputFilename (ns.foldl assignNavLabel (pageParse
        { folderPath := folderPath, basename := basename, pageTitle := none,
          doc := none, anchors := [], bookSet := false, tocFlag := false,
          linkTargetMap := [] } doc anchors docTitle toc))
        = titleToBasename t ++ ".md") := by
  have hparse : (pageParse
      { folderPath := folderPath, basename := basename, pageTitle := none,
        doc := none, anchors := [], bookSet := false, tocFlag := false,
        linkTargetMap := [] } doc anchors docTitle toc).pageTitle
      = if docTitle ≠ "" then some docTitle else none := rfl
  have hbase : (pageParse
      { folderPath := folderPath, basename := basename, pageTitle := none,
        doc := none, anchors := [], bookSet := false, tocFlag := false,
        linkTargetMap := [] } doc anchors docTitle toc).basename = basename := rfl
  refine And.intro ?_ (And.intro ?_ ?_)
  · by_cases hd : docTitle = ""
    · have hnone : (pageParse
          { folderPath := folderPath, basename := basename, pageTitle := none,
            doc := none, anchors := [], bookSet := false, tocFlag := false,
            linkTargetMap := [] } doc anchors docTitle toc).pageTitle = none := by
        rw [hparse]; simp [hd]
      rw [foldl_assignNavLabel_none_iff ns _ hnone]
      simp [hd]
    · have hsome : (pageParse
          { folderPath := folderPath, basename := basename, pageTitle := none,
            doc := none, anchors := [], bookSet := false, tocFlag := false,
            linkTargetMap := [] } doc anchors docTitle toc).pageTitle = some docTitle := by
        rw [hparse]; simp [hd]
      rw [foldl_assignNavLabel_keeps_some ns _ docTitle hsome]
      simp [hd]
  · intro hnone
    unfold pageOutputFilename
    rw [hnone, foldl_assignNavLabel_basename, hbase]
    rfl
  · intro t ht
    unfold pageOutputFilename
    rw [ht]
    rfl

/-- C10 witness: a page parsed with an empty document title and offered
only an empty navigation label keeps the sanitized basename (the colon
replaced by its look-alike). -/
theorem C10_witness :
    ((List.foldl assignNavLabel (pageParse
        { folderPath := [], basename := "ch: 1", pageTitle := none,
          doc := none, anchors := [], bookSet := false, tocFlag := false,
          linkTargetMap := [] } [] [] "" false) [some ""]).pageTitle = none ↔
      (("" : String) = "" ∧ ∀ x ∈ [some ""], x = none ∨ x = some "")) ∧
    pageOutputFilename (List.foldl assignNavLabel (pageParse
        { folderPath := [], basename := "ch: 1", pageTitle := none,
          doc := none, anchors := [], bookSet := false, tocFlag := false,
          linkTargetMap := [] } [] [] "" false) [some ""])
      = titleToBasename "ch: 1" ++ ".md" := by
  have h := C10_pageOutputFilename [] "ch: 1" [] [] "" false [some ""]
  refine And.intro h.1 (h.2.1 ?_)
  rw [h.1]
  exact And.intro rfl (by decide)

/- ================================================================
   Claim C6 (anchor-id syntax of markElementAsLinkTarget)
   ================================================================ -/

/-- C6 evaluation at the failing input: for a source id that fails the
syntax check (the id attribute value 1), with an achievable Math.random
draw, the generated fallback id is the base-24 numeral of the scaled
draw.  It begins with the digit eight and
even contains a dot introduced by the fractional part, so it fails the
obsidianIdValid syntax check that the claim asserts every returned id
passes.  (The draw is two to the minus twentieth power, an exact
binary64 value whose product with the constant is also exact.) -/
theorem C6_fallback_id_fails_syntax :
    markElementAsLinkTargetId (some "1") 1 1048576 = "8fm8k9926.6" ∧
    obsidianIdValid (markElementAsLinkTargetId (some "1") 1 1048576) = false ∧
    obsidianIdValid "1" = false := by
  refine And.intro ?_ (And.intro ?_ (by decide))
  · decide
  · decide

/- ================================================================
   Claim C1 (link reconnection and the unguarded fallback selector)
   ================================================================ -/

/-- C1 evaluation at the failing input: a page holding one hyperlink
whose href names a page of the book with a fragment id that contains a
double quote and matches no element of the target page.  The claim
asserts that a fragment id with no matching element degrades silently
(link to the page, no anchor suffix, nothing raised), but for this id
the canonical id selector is malformed, the catch branch interpolates
the raw id between double quotes into the attribute selector, and that
second lookup is unguarded: its SyntaxError escapes fragmentIdentifier
and aborts the whole reconnect pass (first and second conjuncts).  The
degradation the claim describes does hold whenever a selector parses:
the same hyperlink with a quote-free missing fragment id is rewritten
to the plain output path Other.md with no anchor suffix, and a
hyperlink whose path resolves to no asset is left untouched (third and
fourth conjuncts), which locates the divergence precisely in the
unguarded fallback lookup. -/
theorem C1_fragment_selector_raises :
    fragmentIdentifier (fun _ => none)
        { folderPath := [], basename := "other", pageTitle := some "Other",
          doc := some [{ id := "realId" }], anchors := [], bookSet := true,
          tocFlag := false, linkTargetMap := [] }
        (some "ab\"cd")
      = Except.error "SyntaxError: invalid selector" ∧
    reconnectLinks (fun _ => none)
        [("other.html", AssetModel.pageA
          { folderPath := [], basename := "other", pageTitle := some "Other",
            doc := some [{ id := "realId" }], anchors := [], bookSet := true,
            tocFlag := false, linkTargetMap := [] })]
        { folderPath := [], basename := "self", pageTitle := none,
          doc := some [],
          anchors := [{ href := "other.html#ab\"cd", textContent := "see other" }],
          bookSet := true, tocFlag := false, linkTargetMap := [] }
      = Except.error "SyntaxError: invalid selector" ∧
    reconnectAnchor (fun _ => none)
        [("other.html", AssetModel.pageA
          { folderPath := [], basename := "other", pageTitle := some "Other",
            doc := some [{ id := "realId" }], anchors := [], bookSet := true,
            tocFlag := false, linkTargetMap := [] })]
        { folderPath := [], basename := "self", pageTitle := none,
          doc := some [], anchors := [], bookSet := true, tocFlag := false,
          linkTargetMap := [] }
        { href := "other.html#missingId", textContent := "see other" }
      = Except.ok ({ href := "Other.md", textContent := "see other" },
         [("other.html", AssetModel.pageA
          { folderPath := [], basename := "other", pageTitle := some "Other",
            doc := some [{ id := "realId" }], anchors := [], bookSet := true,
            tocFlag := false, linkTargetMap := [] })],
         { folderPath := [], basename := "self", pageTitle := none,
           doc := some [], anchors := [], bookSet := true, tocFlag := false,
           linkTargetMap := [] }) ∧
    reconnectAnchor (fun _ => none)
        [("other.html", AssetModel.pageA
          { folderPath := [], basename := "other", pageTitle := some "Other",
            doc := some [{ id := "realId" }], anchors := [], bookSet := true,
            tocFlag := false, linkTargetMap := [] })]
        { folderPath := [], basename := "self", pageTitle := none,
          doc := some [], anchors := [], bookSet := true, tocFlag := false,
          linkTargetMap := [] }
        { href := "missing.html#x", textContent := "dangling" }
      = Except.ok ({ href := "missing.html#x", textContent := "dangling" },
         [("other.html", AssetModel.pageA
          { folderPath := [], basename := "other", pageTitle := some "Other",
            doc := some [{ id := "realId" }], anchors := [], bookSet := true,
            tocFlag := false, linkTargetMap := [] })],
         { folderPath := [], basename := "self", pageTitle := none,
           doc := some [], anchors := [], bookSet := true, tocFlag := false,
           linkTargetMap := [] }) := by
  exact ⟨rfl, rfl, rfl, rfl⟩

/- ================================================================
   Claim C2 (per-asset write failures are caught)
   ================================================================ -/

/-- The uncancelled write loop issues exactly two reports per asset
(one success-or-failure and one progress step): no asset aborts it. -/
theorem writeLoop_length (cancelled : Nat → Bool) (hnc : ∀ i, cancelled i = false)
    (imp : String → Except String Unit) (outName : String → String) (T : Nat) :
    ∀ (assets : List (String × AssetKindE)) (p0 i : Nat),
      (writeLoop cancelled imp outName T assets p0 i).length = 2 * assets.length := by
  intro assets
  induction assets with
  | nil => intro p0 i; rfl
  | cons a rest ih =>
    intro p0 i
    rcases a with ⟨href, kd⟩
    rw [writeLoop, hnc i]
    simp only [Bool.false_eq_true, if_false]
    rcases himp : imp href with m | v <;>
      simp [himp, ih (p0 + 1) (i + 1), Nat.mul_succ]

/-- C2: in an uncancelled run of the orchestrator's write loop, an
asset whose import throws is caught and reported individually, with the
asset's output filename and the underlying message, and the loop still
issues its two reports for every asset of the book (so the remaining
assets are all attempted and one failing asset never aborts the whole
import). -/
theorem C2_write_failures_caught (cancelled : Nat → Bool)
    (hnc : ∀ i, cancelled i = false) (imp : String → Except String Unit)
    (outName : String → String) (T : Nat) (assets : List (String × AssetKindE))
    (p0 : Nat) (k : Nat) (hk : k < assets.length) (msg : String)
    (hfail : imp (assets.get ⟨k, hk⟩).1 = Except.error msg) :
    ReportEvent.failed (outName (assets.get ⟨k, hk⟩).1) msg
      ∈ writeLoop cancelled imp outName T assets p0 0 ∧
    (writeLoop cancelled imp outName T assets p0 0).length = 2 * assets.length := by
  refine And.intro ?_ (writeLoop_length cancelled hnc imp outName T assets p0 0)
  have main : ∀ (assets : List (String × AssetKindE)) (k : Nat) (hk : k < assets.length)
      (p0 i : Nat), imp (assets.get ⟨k, hk⟩).1 = Except.error msg →
      ReportEvent.failed (outName (assets.get ⟨k, hk⟩).1) msg
        ∈ writeLoop cancelled imp outName T assets p0 i := by
    intro assets
    induction assets with
    | nil => intro k hk; exact absurd hk (by simp)
    | cons a rest ih =>
      intro k hk p0 i hf
      rcases a with ⟨href, kd⟩
      rw [writeLoop, hnc i]
      simp only [Bool.false_eq_true, if_false]
      cases k with
      | zero =>
        simp only [List.get] at hf
        rcases himp : imp href with m | v
        · rw [himp] at hf
          injection hf with hmsg
          subst hmsg
          simp [himp]
        · rw [himp] at hf
          exact absurd hf (by simp)
      | succ k2 =>
        have hk2 : k2 < rest.length := by
          simpa [Nat.succ_lt_succ_iff] using hk
        have hmem := ih k2 hk2 (p0 + 1) (i + 1) (by simpa using hf)
        rcases himp : imp href with m | v <;> simp [himp] <;>
          exact Or.inr (by simpa using hmem)
  exact main assets k hk p0 0 hfail

/-- C2 witness: three assets, the middle one failing with a disk-full
message; the failure is reported with that asset's name and message and
the loop still issues six reports. -/
theorem C2_witness :
    ReportEvent.failed "b.md" "disk full"
      ∈ writeLoop (fun _ => false)
          (fun h => if h = "b.html" then Except.error "disk full" else Except.ok ())
          (fun h => if h = "b.html" then "b.md" else h)
          4 [("a.png", AssetKindE.mediaK), ("b.html", AssetKindE.pageK),
             ("c.html", AssetKindE.pageK)] 1 0 ∧
    (writeLoop (fun _ => false)
          (fun h => if h = "b.html" then Except.error "disk full" else Except.ok ())
          (fun h => if h = "b.html" then "b.md" else h)
          4 [("a.png", AssetKindE.mediaK), ("b.html", AssetKindE.pageK),
             ("c.html", AssetKindE.pageK)] 1 0).length = 6 :=
  C2_write_failures_caught (fun _ => false) (fun _ => rfl)
    (fun h => if h = "b.html" then Except.error "disk full" else Except.ok ())
    (fun h => if h = "b.html" then "b.md" else h) 4
    [("a.png", AssetKindE.mediaK), ("b.html", AssetKindE.pageK),
     ("c.html", AssetKindE.pageK)] 1 1 (by decide) "disk full" rfl

/- ================================================================
   Claim C3 (progress accounting of a full run)
   ================================================================ -/

/-- One addAssets loop iteration, rephrased through the skip
classification: a skip-classified entry advances the counter and
appends its skip reports plus one progress report; an asset-classified
entry only inserts into the asset map. -/
theorem addAssetStepV2_eq (T : Nat) (sourcePre : List Char)
    (mimeOf : String → Option String) (st : AddStateV2) (e : EntryModel) :
    addAssetStepV2 T sourcePre mimeOf st e
      = if isSkipEntry sourcePre mimeOf e then
          { st with processed := st.processed + 1,
                    events := st.events ++ skipEventsOf sourcePre mimeOf e
                      ++ [ReportEvent.progress (st.processed + 1) T] }
        else
          { st with assets := (mapSet st.assets (entrySourcePath sourcePre e)
              (entryKind sourcePre mimeOf e)) } := by
  unfold addAssetStepV2 isSkipEntry skipEventsOf entryKind
  by_cases h1 : entryUnderPre sourcePre e
  · simp only [h1, if_pos]
    by_cases h2 : ((mimeOf (entrySourcePath sourcePre e)).getD "?" = "text/html"
        ∨ (mimeOf (entrySourcePath sourcePre e)).getD "?" = "application/xhtml+xml")
    · simp [h2]
    · by_cases h3 : (mimeOf (entrySourcePath sourcePre e)).getD "?" = "application/x-dtbncx+xml"
      · simp [h2, h3]
      · by_cases h4 : (mimeOf (entrySourcePath sourcePre e)).getD "?" = "text/css"
        · simp [h2, h3, h4]
        · by_cases h5 : (mimeOf (entrySourcePath sourcePre e)).getD "?" = "?"
          · by_cases h6 : e.extension ≠ "opf" <;> simp [h2, h3, h4, h5, h6]
          · by_cases h7 : e.extension = "" <;> simp [h2, h3, h4, h5, h7]
  · simp [h1]

/-- Skip reports carry no progress pair. -/
theorem skipEventsOf_no_progress (sourcePre : List Char)
    (mimeOf : String → Option String) (e : EntryModel) :
    (skipEventsOf sourcePre mimeOf e).filterMap progressOf = [] := by
  unfold skipEventsOf
  by_cases h1 : entryUnderPre sourcePre e
  · simp only [h1, if_pos]
    by_cases h4 : (mimeOf (entrySourcePath sourcePre e)).getD "?" = "text/css"
    · simp [h4, progressOf]
    · by_cases h5 : (mimeOf (entrySourcePath sourcePre e)).getD "?" = "?"
      · by_cases h6 : e.extension ≠ "opf" <;> simp [h4, h5, h6, progressOf]
      · simp [h4, h5, progressOf]
  · simp [h1, progressOf]

/-- A fresh key turns Map.set into an append. -/
theorem mapSet_fresh {A : Type} (m : List (String × A)) (k : String) (v : A)
    (h : k ∉ m.map Prod.fst) : mapSet m k v = m ++ [(k, v)] := by
  unfold mapSet
  have hf : List.find? (fun q => q.1 = k) m = none := by
    rw [List.find?_eq_none]
    intro x hx
    simp only [decide_eq_true_eq]
    intro hxk
    exact h (List.mem_map.mpr ⟨x, hx, hxk⟩)
  rw [hf]
  rfl

/-- An entry that becomes an asset lies under the book prefix. -/
theorem nonskip_under (sourcePre : List Char) (mimeOf : String → Option String)
    (e : EntryModel) (h : isSkipEntry sourcePre mimeOf e = false) :
    entryUnderPre sourcePre e = true := by
  by_cases h1 : entryUnderPre sourcePre e
  · exact h1
  · unfold isSkipEntry at h
    rw [if_neg h1] at h
    exact absurd h (by simp)

/-- Under the book prefix, the book-relative source path determines the
archive path. -/
theorem entrySourcePath_inj (sourcePre : List Char) (e f : EntryModel)
    (he : entryUnderPre sourcePre e = true) (hf : entryUnderPre sourcePre f = true)
    (heq : entrySourcePath sourcePre e = entrySourcePath sourcePre f) :
    e.filepath = f.filepath := by
  unfold entryUnderPre at he hf
  unfold entrySourcePath at heq
  have he2 : e.filepath.take sourcePre.length = sourcePre := by
    simpa using he
  have hf2 : f.filepath.take sourcePre.length = sourcePre := by
    simpa using hf
  have hdrop : e.filepath.drop sourcePre.length = f.filepath.drop sourcePre.length := by
    injection heq
  calc e.filepath
      = e.filepath.take sourcePre.length ++ e.filepath.drop sourcePre.length :=
        (List.take_append_drop _ _).symm
    _ = f.filepath.take sourcePre.length ++ f.filepath.drop sourcePre.length := by
        rw [he2, hf2, hdrop]
    _ = f.filepath := List.take_append_drop _ _

/-- Membership in the asset-record keys names a non-skip entry. -/
theorem assetRecs_key_mem (sourcePre : List Char) (mimeOf : String → Option String) :
    ∀ (entries : List EntryModel) (k : String),
      k ∈ (assetRecsOf sourcePre mimeOf entries).map Prod.fst →
      ∃ e ∈ entries, isSkipEntry sourcePre mimeOf e = false ∧
        k = entrySourcePath sourcePre e := by
  intro entries
  induction entries with
  | nil => intro k hk; exact absurd hk (by simp [assetRecsOf])
  | cons e rest ih =>
    intro k hk
    unfold assetRecsOf at hk
    rw [List.filterMap_cons] at hk
    by_cases hs : isSkipEntry sourcePre mimeOf e
    · rw [if_pos hs] at hk
      obtain ⟨f, hf1, hf2, hf3⟩ := ih k hk
      exact ⟨f, List.mem_cons_of_mem e hf1, hf2, hf3⟩
    · rw [if_neg hs] at hk
      rcases List.mem_map.mp hk with ⟨q, hq1, hq2⟩
      rcases List.mem_cons.mp hq1 with hq1 | hq1
      · subst hq1
        exact ⟨e, List.mem_cons_self e rest, by simpa using hs, by simp [← hq2]⟩
      · obtain ⟨f, hf1, hf2, hf3⟩ := ih k (List.mem_map.mpr ⟨q, hq1, hq2⟩)
        exact ⟨f, List.mem_cons_of_mem e hf1, hf2, hf3⟩

/-- Pairwise distinct archive paths give pairwise distinct asset-map
keys. -/
theorem assetRecs_keys_nodup (sourcePre : List Char) (mimeOf : String → Option String) :
    ∀ entries : List EntryModel, (entries.map EntryModel.filepath).Nodup →
      ((assetRecsOf sourcePre mimeOf entries).map Prod.fst).Nodup := by
  intro entries
  induction entries with
  | nil => intro _; simp [assetRecsOf]
  | cons e rest ih =>
    intro hnd
    rw [List.map_cons, List.nodup_cons] at hnd
    unfold assetRecsOf
    rw [List.filterMap_cons]
    by_cases hs : isSkipEntry sourcePre mimeOf e
    · rw [if_pos hs]
      exact ih hnd.2
    · rw [if_neg hs]
      rw [List.map_cons, List.nodup_cons]
      refine And.intro ?_ (ih hnd.2)
      intro hmem
      obtain ⟨f, hf1, hf2, hf3⟩ := assetRecs_key_mem sourcePre mimeOf rest _ hmem
      have hfp : e.filepath = f.filepath :=
        entrySourcePath_inj sourcePre e f
          (nonskip_under sourcePre mimeOf e (by simpa using hs))
          (nonskip_under sourcePre mimeOf f hf2) hf3
      exact hnd.1 (hfp ▸ List.mem_map.mpr ⟨f, hf1, rfl⟩)

/-- Concatenation of consecutive progress ramps. -/
theorem range'_glue (s m n : Nat) :
    List.range' s m ++ List.range' (s + m) n = List.range' s (m + n) := by
  have h := List.range'_append s m n 1
  rw [one_mul] at h
  rw [h, Nat.add_comm n m]

/-- The uncancelled write loop reports the progress ramp starting one
above its incoming counter, one step per asset. -/
theorem writeLoop_progress (cancelled : Nat → Bool) (hnc : ∀ i, cancelled i = false)
    (imp : String → Except String Unit) (outName : String → String) (T : Nat) :
    ∀ (assets : List (String × AssetKindE)) (p0 i : Nat),
      (writeLoop cancelled imp outName T assets p0 i).filterMap progressOf
        = (List.range' (p0 + 1) assets.length).map (fun p => (p, T)) := by
  intro assets
  induction assets with
  | nil => intro p0 i; rfl
  | cons a rest ih =>
    intro p0 i
    rcases a with ⟨href, kd⟩
    rw [writeLoop, hnc i]
    simp only [Bool.false_eq_true, if_false]
    rw [List.length_cons, List.range'_succ, List.map_cons]
    rcases himp : imp href with m | v
    · simp [progressOf, ih (p0 + 1) (i + 1)]
    · by_cases hkd : kd = AssetKindE.mediaK <;>
        simp [hkd, progressOf, ih (p0 + 1) (i + 1)]

/-- The addAssets entry loop, characterized: starting from any state
whose asset keys avoid the upcoming asset paths, the loop adds one
progress unit per skip-classified entry (a ramp continuing the incoming
counter against the fixed denominator), appends exactly the asset
records of the entry list to the map, and leaves earlier reports in
place. -/
theorem addAssets_fold (T : Nat) (sourcePre : List Char)
    (mimeOf : String → Option String) :
    ∀ (entries : List EntryModel) (st : AddStateV2),
      (∀ e ∈ entries, isSkipEntry sourcePre mimeOf e = false →
        entrySourcePath sourcePre e ∉ st.assets.map Prod.fst) →
      ((assetRecsOf sourcePre mimeOf entries).map Prod.fst).Nodup →
      (entries.foldl (addAssetStepV2 T sourcePre mimeOf) st).processed
          = st.processed + skipCount sourcePre mimeOf entries ∧
      (entries.foldl (addAssetStepV2 T sourcePre mimeOf) st).assets
          = st.assets ++ assetRecsOf sourcePre mimeOf entries ∧
      (entries.foldl (addAssetStepV2 T sourcePre mimeOf) st).events.filterMap progressOf
          = st.events.filterMap progressOf
            ++ (List.range' (st.processed + 1) (skipCount sourcePre mimeOf entries)).map
                (fun p => (p, T)) := by
  intro entries
  induction entries with
  | nil =>
    intro st _ _
    refine And.intro (by simp [skipCount]) (And.intro (by simp [assetRecsOf]) ?_)
    simp [skipCount]
  | cons e rest ih =>
    intro st hfresh hnodup
    rw [List.foldl_cons, addAssetStepV2_eq]
    by_cases hs : isSkipEntry sourcePre mimeOf e
    · rw [if_pos hs]
      have hrecs : assetRecsOf sourcePre mimeOf (e :: rest)
          = assetRecsOf sourcePre mimeOf rest := by
        unfold assetRecsOf
        rw [List.filterMap_cons, if_pos hs]
      have hcount : skipCount sourcePre mimeOf (e :: rest)
          = skipCount sourcePre mimeOf rest + 1 := by
        unfold skipCount
        rw [List.countP_cons, if_pos (by simpa using hs)]
      have ihres := ih
        { st with
          processed := st.processed + 1
          events := st.events ++ skipEventsOf sourcePre mimeOf e
            ++ [ReportEvent.progress (st.processed + 1) T] }
        (fun f hf hns => hfresh f (List.mem_cons_of_mem e hf) hns)
        (by rw [← hrecs]; exact hnodup)
      refine And.intro ?_ (And.intro ?_ ?_)
      · rw [ihres.1, hcount]
        simp [Nat.add_assoc, Nat.add_comm 1]
      · rw [ihres.2.1, hrecs]
      · rw [ihres.2.2, hcount]
        simp only [List.filterMap_append, skipEventsOf_no_progress, List.append_nil,
          List.filterMap_cons, progressOf]
        rw [List.range'_succ, List.map_cons]
        simp [Nat.add_assoc, Nat.add_comm 1]
    · rw [if_neg hs]
      have hrecs : assetRecsOf sourcePre mimeOf (e :: rest)
          = (entrySourcePath sourcePre e, entryKind sourcePre mimeOf e)
              :: assetRecsOf sourcePre mimeOf rest := by
        unfold assetRecsOf
        rw [List.filterMap_cons, if_neg hs]
      have hcount : skipCount sourcePre mimeOf (e :: rest)
          = skipCount sourcePre mimeOf rest := by
        unfold skipCount
        rw [List.countP_cons, if_neg (by simpa using hs)]
        rfl
      have hnodup2 : ((assetRecsOf sourcePre mimeOf rest).map Prod.fst).Nodup := by
        rw [hrecs] at hnodup
        exact (List.nodup_cons.mp (by simpa using hnodup)).2
      have hkey : entrySourcePath sourcePre e ∉ st.assets.map Prod.fst :=
        hfresh e (List.mem_cons_self e rest) (by simpa using hs)
      have hset : mapSet st.assets (entrySourcePath sourcePre e)
          (entryKind sourcePre mimeOf e)
          = st.assets ++ [(entrySourcePath sourcePre e, entryKind sourcePre mimeOf e)] :=
        mapSet_fresh _ _ _ hkey
      have hfresh2 : ∀ f ∈ rest, isSkipEntry sourcePre mimeOf f = false →
          entrySourcePath sourcePre f
            ∉ (st.assets ++ [(entrySourcePath sourcePre e, entryKind sourcePre mimeOf e)]).map
                Prod.fst := by
        intro f hf hns
        rw [List.map_append, List.mem_append]
        rintro (hc | hc)
        · exact hfresh f (List.mem_cons_of_mem e hf) hns hc
        · have hne : entrySourcePath sourcePre f ≠ entrySourcePath sourcePre e := by
            intro hcontra
            rw [hrecs] at hnodup
            have hmem : entrySourcePath sourcePre e
                ∈ (assetRecsOf sourcePre mimeOf rest).map Prod.fst := by
              rw [← hcontra]
              refine List.mem_map.mpr ?_
              unfold assetRecsOf
              exact ⟨(entrySourcePath sourcePre f, entryKind sourcePre mimeOf f),
                List.mem_filterMap.mpr ⟨f, hf, by rw [if_neg (by simp [hns])]⟩, rfl⟩
            exact (List.nodup_cons.mp (by simpa using hnodup)).1 hmem
          simp only [List.map_cons, List.map_nil, List.mem_singleton] at hc
          exact hne hc
      have ihres := ih { st with assets := (mapSet st.assets (entrySourcePath sourcePre e)
            (entryKind sourcePre mimeOf e)) } (by rw [hset]; exact hfresh2) hnodup2
      refine And.intro ?_ (And.intro ?_ ?_)
      · rw [ihres.1, hcount]
      · rw [ihres.2.1, hrecs]
        simp only [hset]
        rw [List.append_assoc]
        rfl
      · rw [ihres.2.2, hcount]

/-- Every entry is either skip-classified or contributes one asset
record. -/
theorem skip_asset_count (sourcePre : List Char) (mimeOf : String → Option String) :
    ∀ entries : List EntryModel,
      skipCount sourcePre mimeOf entries + (assetRecsOf sourcePre mimeOf entries).length
        = entries.length := by
  intro entries
  induction entries with
  | nil => rfl
  | cons e rest ih =>
    unfold skipCount assetRecsOf
    rw [List.countP_cons, List.filterMap_cons]
    unfold skipCount assetRecsOf at ih
    by_cases hs : isSkipEntry sourcePre mimeOf e <;> simp [hs] <;> omega

/-- C3: in an uncancelled run over an archive that has a manifest entry
and pairwise distinct entry paths, into a fresh output folder, the
progress pairs reported by the orchestrator are exactly the ramp
(1, n+1), (2, n+1), ..., (n+1, n+1), where n is the archive entry
count: the denominator is everywhere the entry count plus one (the
synthesized about page), the numerator strictly increases by one per
archive entry handled (skips during classification, then the about
page, then one step per written asset, failed or not) and reaches the
denominator at completion. -/
theorem C3_progress_accounting (sourcePre : List Char)
    (mimeOf : String → Option String) (rc cancelled : Nat → Bool)
    (title bookFolderPath titleFilename : String) (imp : String → Except String Unit)
    (outName : String → String) (entries : List EntryModel)
    (hman : (entries.find? (fun e => e.extension = "opf")).isSome)
    (hrc : ∀ i, rc i = false) (hnc : ∀ i, cancelled i = false)
    (hnodup : (entries.map EntryModel.filepath).Nodup) :
    (importRunV2 sourcePre mimeOf rc cancelled false title bookFolderPath titleFilename
        imp outName entries).filterMap progressOf
      = (List.range' 1 (entries.length + 1)).map (fun p => (p, entries.length + 1)) ∧
    ((importRunV2 sourcePre mimeOf rc cancelled false title bookFolderPath titleFilename
        imp outName entries).filterMap progressOf).length = entries.length + 1 ∧
    ((importRunV2 sourcePre mimeOf rc cancelled false title bookFolderPath titleFilename
        imp outName entries).filterMap progressOf).getLast?
      = some (entries.length + 1, entries.length + 1) := by
  have main :
    (importRunV2 sourcePre mimeOf rc cancelled false title bookFolderPath titleFilename
        imp outName entries).filterMap progressOf
      = (List.range' 1 (entries.length + 1)).map (fun p => (p, entries.length + 1)) := by
    obtain   ⟨m, hm⟩ := Option.isSome_iff_exists.mp hman
    unfold importRunV2 addAssetsV2
    rw [hm]
    have hfold := addAssets_fold (entries.length + 1) sourcePre mimeOf entries
      { processed := 0, assets := [],
        events := [ReportEvent.statusMsg "Parsing epub file contents"] }
      (by intro f hf hns; simp)
      (assetRecs_keys_nodup sourcePre mimeOf entries hnodup)
    rw [show (0 : Nat) + skipCount sourcePre mimeOf entries
        = skipCount sourcePre mimeOf entries from by omega] at hfold
    rw [List.filterMap_append, hfold.2.2, hfold.2.1, hfold.1]
    simp only [List.nil_append, List.filterMap_cons, progressOf, List.filterMap_nil]
    unfold importAssetsV2
    rw [if_neg (by simp : ¬(false = true))]
    have hany : (List.any (List.range (assetRecsOf sourcePre mimeOf entries).length)
        fun i => rc i) = false := by
      simp [hrc]
    rw [if_neg (by simp [hrc])]
    simp only [List.filterMap_cons, progressOf]
    rw [writeLoop_progress cancelled hnc imp outName (entries.length + 1)]
    have hglue : ((skipCount sourcePre mimeOf entries + 1, entries.length + 1)
          :: (List.range' (skipCount sourcePre mimeOf entries + 1 + 1)
              (assetRecsOf sourcePre mimeOf entries).length).map
            (fun p => (p, entries.length + 1)))
        = (List.range' (skipCount sourcePre mimeOf entries + 1)
            ((assetRecsOf sourcePre mimeOf entries).length + 1)).map
          (fun p => (p, entries.length + 1)) := by
      rw [List.range'_succ, List.map_cons]
    rw [hglue, ← List.map_append]
    rw [show skipCount sourcePre mimeOf entries + 1
        = 1 + skipCount sourcePre mimeOf entries from by omega]
    rw [range'_glue 1 (skipCount sourcePre mimeOf entries)
      ((assetRecsOf sourcePre mimeOf entries).length + 1)]
    rw [show skipCount sourcePre mimeOf entries
        + ((assetRecsOf sourcePre mimeOf entries).length + 1) = entries.length + 1 from by
      have := skip_asset_count sourcePre mimeOf entries
      omega]
  refine And.intro main (And.intro ?_ ?_)
  · rw [main]
    simp
  · rw [main]
    rw [List.range'_concat]
    rw [List.map_append]
    simp
    omega

/-- C3 witness: a three-entry archive (manifest, one page, one image)
reports exactly the progress ramp one to four over the denominator
four. -/
theorem C3_witness :
    (importRunV2 "book/".data
        (fun s => if s = "ch1.html" then some "application/xhtml+xml"
          else if s = "img.png" then some "image/png" else none)
        (fun _ => false) (fun _ => false) false
        "T" "e-books/T" "§ About꞉ T.md" (fun _ => Except.ok ()) (fun s => s)
        [{ filepath := "book/content.opf".data, name := "content.opf", extension := "opf" },
         { filepath := "book/ch1.html".data, name := "ch1.html", extension := "html" },
         { filepath := "book/img.png".data, name := "img.png", extension := "png" }]).filterMap
      progressOf = [(1, 4), (2, 4), (3, 4), (4, 4)] := by
  rw [(C3_progress_accounting "book/".data
    (fun s => if s = "ch1.html" then some "application/xhtml+xml"
      else if s = "img.png" then some "image/png" else none)
    (fun _ => false) (fun _ => false)
    "T" "e-books/T" "§ About꞉ T.md" (fun _ => Except.ok ()) (fun s => s)
    [{ filepath := "book/content.opf".data, name := "content.opf", extension := "opf" },
     { filepath := "book/ch1.html".data, name := "ch1.html", extension := "html" },
     { filepath := "book/img.png".data, name := "img.png", extension := "png" }]
    (by decide) (fun _ => rfl) (fun _ => rfl) (by decide)).1]
  decide

/- ================================================================
   Claim C7 (missing manifest)
   ================================================================ -/

/-- C7 evaluation at the failing input: an archive whose single entry
is a page (no opf-typed entry anywhere).  The run produces no output at
all, in particular the book output folder is never created (the
continuation that would create it is never reached, whatever it does),
but it also reports nothing: there is no failure report, and instead
the import dies with an uncaught TypeError when the write phase reads
the metadata that parseManifest never set. -/
theorem C7_missing_manifest_behavior :
    importRunV1 false "T" "e-books"
        (fun p => { events := [], folders := [p], files := [], err := none })
        [{ filepath := "book/ch1.html".data, name := "ch1.html", extension := "html" }]
      = { events := [], folders := [], files := [],
          err := some "TypeError: this.meta is undefined" } := by
  decide
